import Mathlib

/-!
Verification of the mockfacebook graph-API mock server.

Shallow embedding of the repository's request-handling code:
  graph.py      (BaseHandler.prepare_ids, ObjectHandler, ConnectionHandler,
                 the GraphError hierarchy and its rendering),
  app.py        (TestUsersHandler),
  schemautil.py (values_to_sqlite, GraphDataset.to_sql, make_insert).

Modelling conventions, fixed once for the whole file:
  * JSON-decoded Python values are the inductive type JsonVal; a database
    row stores its payload already decoded (json.loads is the identity on
    this representation, json.dumps is the serializer dumpsVal below).
  * Python dicts are association lists in insertion order (aget / aset).
  * Python sets are duplicate-free lists in first-insertion order (pySet,
    pyUnion); str.split is pySplit.
  * Machine integers do not occur on any modelled path; ids and aliases are
    strings exactly as in the SQLite schema.
  * Raising an exception is the .error branch of Except; the non-GraphError
    exceptions that can escape (TypeError from iterating None, the failed
    assert in BaseHandler.get) are the distinguished outcomes
    PrepError.typeError and Outcome.uncaught.
-/

/-- A decoded JSON value (the result of Python json.loads). -/
inductive JsonVal where
  | str  : String → JsonVal
  | num  : Int → JsonVal
  | bool : Bool → JsonVal
  | null : JsonVal
  | arr  : List JsonVal → JsonVal
  | obj  : List (String × JsonVal) → JsonVal

/-- Python dict lookup on an insertion-ordered association list. -/
def aget {β : Type} : List (String × β) → String → Option β
  | [], _ => none
  | (k, v) :: t, n => if k = n then some v else aget t n

/-- Python dict lookup with a default (total form of aget). -/
def agetD {β : Type} (l : List (String × β)) (n : String) (d : β) : β :=
  (aget l n).getD d

/-- Python dict assignment: replace in place if the key exists, else append. -/
def aset {β : Type} : List (String × β) → String → β → List (String × β)
  | [], k, v => [(k, v)]
  | (k0, v0) :: t, k, v =>
      if k0 = k then (k0, v) :: t else (k0, v0) :: aset t k v

/-- In-place list append on one dict entry
(models resp[name].append(x) in ConnectionHandler; a missing key is left
untouched, which the handler never reaches because every appended key was
seeded first). -/
def aupd (l : List (String × List JsonVal)) (k : String) (v : JsonVal) :
    List (String × List JsonVal) :=
  l.map (fun p => if p.1 = k then (p.1, p.2 ++ [v]) else p)

/-- Python set.union(acc, iterable): add unseen elements in iteration order. -/
def pyUnion {α : Type} [DecidableEq α] (acc l : List α) : List α :=
  l.foldl (fun a x => if x ∈ a then a else a ++ [x]) acc

/-- Python set(list): duplicate-free list in first-insertion order. -/
def pySet {α : Type} [DecidableEq α] (l : List α) : List α :=
  pyUnion [] l

/-- Python str.split(sep) over the character list: keeps empty fields and
always returns at least one field. -/
def splitChars (sep : Char) : List Char → List (List Char)
  | [] => [[]]
  | c :: cs =>
      let rest := splitChars sep cs
      if c = sep then [] :: rest
      else
        match rest with
        | r :: rs => (c :: r) :: rs
        | [] => [[c]]

/-- Python str.split(sep) on strings. -/
def pySplit (s : String) (sep : Char) : List String :=
  (splitChars sep s.data).map String.mk

/-- graph.is_int: True iff Python int(str) succeeds — optional surrounding
whitespace, an optional sign, then at least one digit. -/
def is_int (s : String) : Bool :=
  let t := ((s.data.dropWhile Char.isWhitespace).reverse.dropWhile
    Char.isWhitespace).reverse
  let t := match t with
    | c :: cs => if c = '-' || c = '+' then cs else c :: cs
    | [] => []
  !t.isEmpty && t.all Char.isDigit

/-- A row of the graph_objects table: id, optional alias, decoded payload. -/
structure ObjRow where
  id : String
  alias_ : Option String
  data : JsonVal

/-- A row of the graph_connections table: owning id, connection name,
decoded payload. -/
structure ConnRow where
  id : String
  conn : String
  data : JsonVal

/-- An incoming GET request as the handlers see it: the path identifier
(empty string when the path segment is blank) and the raw ids query
parameter when present. -/
structure Request where
  path_id : String
  ids : Option String
deriving DecidableEq

/-- graph.NameDict: maps resolved ids to the name they were requested by,
plus the single-identifier-form flag. -/
structure NameDict where
  entries : List (String × String)
  single : Bool
deriving DecidableEq

/-- The closed vocabulary of GraphError kinds declared in graph.py. -/
inductive GraphError where
  | objectNotFound
  | objectsNotFound
  | connectionNotFound
  | accessToken
  | aliasNotFound (names : String)
  | badGet
  | unknownPath (name : String)
  | idSpecified (name : String)
  | emptyIdentifier
deriving DecidableEq

/-- Each kind's fixed message template, with its argument substituted
(GraphError.__init__ does self.message = self.message % args). -/
def GraphError.message : GraphError → String
  | .objectNotFound => "false"
  | .objectsNotFound => "[\n\n]"
  | .connectionNotFound => "\x7b\n  \"data\": [\n  ]\n\x7d"
  | .accessToken => "A user access token is required to request this resource."
  | .aliasNotFound names =>
      "(#803) Some of the aliases you requested do not exist: " ++ names
  | .badGet => "Unsupported get request."
  | .unknownPath name => "Unknown path components: /" ++ name
  | .idSpecified name =>
      "Invalid token: \"" ++ name ++ "\".  An ID has already been specified."
  | .emptyIdentifier => "Cannot specify an empty identifier"

/-- Each kind's optional machine-readable type tag. -/
def GraphError.type : GraphError → Option String
  | .objectNotFound => none
  | .objectsNotFound => none
  | .connectionNotFound => none
  | .accessToken => some "OAuthException"
  | .aliasNotFound _ => some "OAuthException"
  | .badGet => some "GraphMethodException"
  | .unknownPath _ => some "OAuthException"
  | .idSpecified _ => some "OAuthException"
  | .emptyIdentifier => some "OAuthException"

/-- The rendered body of an error: GraphError.__unicode__ returns the JSON
object with error/message/type fields when a type tag is present, and the
bare message text otherwise. -/
inductive ErrorRender where
  | jsonObj (message : String) (ty : String)
  | bare (message : String)
deriving DecidableEq

/-- GraphError.__unicode__. -/
def GraphError.render (e : GraphError) : ErrorRender :=
  match e.type with
  | some t => .jsonObj e.message t
  | none => .bare e.message

/-- An error escaping prepare_ids: either a GraphError, or the TypeError
raised by iterating over None when neither a path id nor an ids parameter
was supplied. -/
inductive PrepError where
  | graph (e : GraphError)
  | typeError
deriving DecidableEq

/-- graph.REDIRECT_CONNECTION. -/
def REDIRECT_CONNECTION : String := "picture"

/-- The names-collection phase of BaseHandler.prepare_ids: build the
requested-name set from the ids parameter and/or the path id, raise
IdSpecifiedError when both are supplied, TypeError when neither is, and
EmptyIdentifierError when a name is empty or the literal zero string. -/
def requestNames (req : Request) : Except PrepError (List String) :=
  let names0 : Option (List String) :=
    match req.ids with
    | some s => some (pySet (pySplit s ','))
    | none => none
  let truthy : Bool := match names0 with
    | some l => !l.isEmpty
    | none => false
  if req.path_id ≠ "" then
    if truthy then .error (.graph (.idSpecified req.path_id))
    else checkNames (some [req.path_id])
  else checkNames names0
where
  /-- The validation tail of the phase: the None case models the TypeError
  from all(... for name in None). -/
  checkNames : Option (List String) → Except PrepError (List String)
    | none => .error .typeError
    | some ns =>
        if !ns.all (fun n => !(n = "") && !(n = "0")) then
          .error (.graph .emptyIdentifier)
        else .ok ns

/-- The WHERE clause of the lookup query: a row matches when its id or its
alias is among the requested names. -/
def rowMatches (ns : List String) (r : ObjRow) : Bool :=
  decide (r.id ∈ ns) ||
    (match r.alias_ with
     | some a => decide (a ∈ ns)
     | none => false)

/-- The rows returned by the id/alias lookup query, in storage order. -/
def resolveRows (db : List ObjRow) (ns : List String) : List ObjRow :=
  db.filter (rowMatches ns)

/-- The name a resolved row was requested by: the alias when the alias was
among the requested names, else the id. -/
def requestedKey (ns : List String) (r : ObjRow) : String :=
  match r.alias_ with
  | some a => if a ∈ ns then a else r.id
  | none => r.id

/-- The loop of prepare_ids that fills the NameDict from the query rows. -/
def buildNameDict (db : List ObjRow) (ns : List String) :
    List (String × String) :=
  (resolveRows db ns).foldl (fun acc r => aset acc r.id (requestedKey ns r)) []

/-- names - set(namedict.values() + namedict.keys()), in request order. -/
def notFoundNames (db : List ObjRow) (ns : List String) : List String :=
  let nd := buildNameDict db ns
  ns.filter (fun n =>
    decide (n ∉ (nd.map Prod.snd ++ nd.map Prod.fst)))

/-- BaseHandler.prepare_ids. -/
def prepare_ids (db : List ObjRow) (req : Request) :
    Except PrepError NameDict :=
  match requestNames req with
  | .error e => .error e
  | .ok ns =>
    let entries := buildNameDict db ns
    let nf := notFoundNames db ns
    if nf ≠ [] then
      let aliases := nf.filter (fun n => !(is_int n))
      if aliases ≠ [] then
        .error (.graph (.aliasNotFound (String.intercalate "," aliases)))
      else if req.path_id ≠ "" then .error (.graph .objectNotFound)
      else .error (.graph .objectsNotFound)
    else .ok ⟨entries, req.path_id != ""⟩

/-- The body of an HTTP response produced by a handler. -/
inductive RespBody where
  | jsonBody (v : JsonVal)
  | errorText (r : ErrorRender)
  | redirectTo (url : JsonVal)

/-- An HTTP response: status code and body. -/
structure HttpResponse where
  status : Nat
  body : RespBody

/-- The outcome of one request: a written response, or an exception outside
the GraphError vocabulary propagating out of the handler. -/
inductive Outcome where
  | response (r : HttpResponse)
  | uncaught

/-- ObjectHandler._get: one query for the resolved ids, then a dict keyed by
the originally requested name. -/
def ObjectHandler_get (db : List ObjRow) (nd : NameDict) :
    List (String × JsonVal) :=
  let ids := nd.entries.map Prod.fst
  (db.filter (fun r => decide (r.id ∈ ids))).foldl
    (fun acc r => aset acc (agetD nd.entries r.id "") r.data) []

/-- The response-shaping tail of BaseHandler.get: a single-identifier
request collapses to the bare value (the empty-dict case renders the empty
JSON list; more than one entry fails the assert and escapes), a multi-id
request renders the mapping as-is. -/
def shapeResponse (single : Bool) (resp : List (String × JsonVal)) : Outcome :=
  if single then
    match resp with
    | [] => .response ⟨200, .jsonBody (.arr [])⟩
    | [p] => .response ⟨200, .jsonBody p.2⟩
    | _ => .uncaught
  else .response ⟨200, .jsonBody (.obj resp)⟩

/-- BaseHandler.get specialised to ObjectHandler: the try/except boundary
catches exactly the GraphError vocabulary and writes its rendering with the
default 200 status; the stored me identity is accepted but never consulted.
-/
def ObjectHandler_handle (db : List ObjRow) (me : Int) (req : Request) :
    Outcome :=
  match prepare_ids db req with
  | .error .typeError => .uncaught
  | .error (.graph e) => .response ⟨200, .errorText e.render⟩
  | .ok nd => shapeResponse nd.single (ObjectHandler_get db nd)

/-- The rows of the connection query for the resolved ids and the requested
connection name, in storage order. -/
def matchingRows (cdb : List ConnRow) (ids : List String)
    (connection : String) : List ConnRow :=
  cdb.filter (fun r => decide (r.id ∈ ids) && decide (r.conn = connection))

/-- The result of ConnectionHandler._get: a redirect, or a mapping from each
requested name to its list of decoded connection payloads. -/
inductive ConnResult where
  | redirect (url : JsonVal)
  | mapping (m : List (String × List JsonVal))

/-- ConnectionHandler._get: reject unknown connection names, redirect on the
reserved picture connection when any row matched (the first row overall),
otherwise seed every requested name with an empty list and append each row's
decoded payload under the name its owning id was requested by. -/
def ConnectionHandler_get (allConns : List String) (cdb : List ConnRow)
    (nd : NameDict) (connection : String) : Except GraphError ConnResult :=
  if connection ∉ allConns then .error (.unknownPath connection)
  else
    let ids := nd.entries.map Prod.fst
    let rows := matchingRows cdb ids connection
    match (if connection = REDIRECT_CONNECTION then rows.head? else none) with
    | some r => .ok (.redirect r.data)
    | none =>
        let base := (nd.entries.map Prod.snd).foldl
          (fun a n => aset a n ([] : List JsonVal)) []
        let resp := rows.foldl
          (fun a r => aupd a (agetD nd.entries r.id "") r.data) base
        .ok (.mapping resp)

/-- BaseHandler.get specialised to ConnectionHandler; the redirect is issued
with status 302 and the decoded URL, bypassing the normal body. -/
def ConnectionHandler_handle (odb : List ObjRow) (cdb : List ConnRow)
    (allConns : List String) (me : Int) (req : Request)
    (connection : String) : Outcome :=
  match prepare_ids odb req with
  | .error .typeError => .uncaught
  | .error (.graph e) => .response ⟨200, .errorText e.render⟩
  | .ok nd =>
    match ConnectionHandler_get allConns cdb nd connection with
    | .error e => .response ⟨200, .errorText e.render⟩
    | .ok (.redirect url) => .response ⟨302, .redirectTo url⟩
    | .ok (.mapping m) =>
        shapeResponse nd.single
          (m.map (fun p => (p.1, JsonVal.obj [("data", .arr p.2)])))

/-- BaseHandler.init: the legal-connection-name set is the fold of
set.union over the graph schema's per-table connection-name tuples. -/
def init_all_connections (connections : List (String × List String)) :
    List String :=
  (connections.map Prod.snd).foldl pyUnion []

/-- A response from the test-users endpoint: json.dump writes the body onto
a plain-text UTF-8 stream with the given indentation. -/
structure TUResponse where
  contentType : String
  indent : Nat
  status : Nat
  body : JsonVal

/-- app.TestUsersHandler.get: SELECT DISTINCT user_id, token FROM
oauth_access_tokens, then a data list of id/access_token objects; the
application id is accepted but never consulted. Token-table values are
modelled as strings. -/
def TestUsersHandler_get (tokens : List (String × String)) (app_id : String) :
    TUResponse :=
  let rows := pySet tokens
  ⟨"text/plain; charset=utf-8", 2, 200,
    .obj [("data", .arr (rows.map (fun p =>
      .obj [("id", .str p.1), ("access_token", .str p.2)])))]⟩

/-- schemautil.ALIAS_FIELD. -/
def ALIAS_FIELD : String := "username"

/-- A Python value passed to schemautil.values_to_sqlite. -/
inductive PyVal where
  | pybool (b : Bool)
  | pystr (s : String)
  | pynone
  | pyjson (v : JsonVal)

/-- The Python value a decoded JSON field arrives as. -/
def pyOfJson : JsonVal → PyVal
  | .str s => .pystr s
  | .bool b => .pybool b
  | .null => .pynone
  | v => .pyjson v

/-- The character-level escaping of json.dumps for string values. -/
def jsonEscape (s : String) : String :=
  s.data.foldl (fun acc c =>
    acc ++ (if c = '"' then "\\\"" else
            if c = '\\' then "\\\\" else String.singleton c)) ""

mutual

/-- json.dumps with its default separators. -/
def dumpsVal : JsonVal → String
  | .str s => "\"" ++ jsonEscape s ++ "\""
  | .num n => toString n
  | .bool b => if b then "true" else "false"
  | .null => "null"
  | .arr xs => "[" ++ dumpsArr xs ++ "]"
  | .obj fs => "\x7b" ++ dumpsObj fs ++ "\x7d"

/-- json.dumps of a JSON array body. -/
def dumpsArr : List JsonVal → String
  | [] => ""
  | [x] => dumpsVal x
  | x :: y :: t => dumpsVal x ++ ", " ++ dumpsArr (y :: t)

/-- json.dumps of a JSON object body. -/
def dumpsObj : List (String × JsonVal) → String
  | [] => ""
  | [(k, v)] => "\"" ++ jsonEscape k ++ "\": " ++ dumpsVal v
  | (k, v) :: f :: t =>
      "\"" ++ jsonEscape k ++ "\": " ++ dumpsVal v ++ ", " ++ dumpsObj (f :: t)

end

/-- SQLite string escaping: every embedded single quote is doubled. -/
def sqliteQuote (s : String) : String :=
  s.data.foldl (fun acc c =>
    acc ++ (if c = '\x27' then "\x27\x27" else String.singleton c)) ""

/-- The per-value rendering rule of schemautil.values_to_sqlite. -/
def pyValToSqlite : PyVal → String
  | .pybool b => if b then "1" else "0"
  | .pystr s => "\x27" ++ sqliteQuote s ++ "\x27"
  | .pynone => "NULL"
  | .pyjson v => dumpsVal v

/-- schemautil.values_to_sqlite. -/
def values_to_sqlite (vals : List PyVal) : String :=
  String.intercalate ",\n  " (vals.map pyValToSqlite)

/-- One emitted SQL statement of GraphDataset.to_sql, at statement
granularity. -/
inductive Stmt where
  | beginT
  | commit
  | insert (table : String) (values : List PyVal)

/-- GraphDataset.make_insert, rendered. -/
def make_insert (table : String) (values : List PyVal) : String :=
  "INSERT INTO " ++ table ++ " VALUES (\n  " ++ values_to_sqlite values ++ "\n);"

/-- The string form of one statement. -/
def Stmt.render : Stmt → String
  | .beginT => "BEGIN TRANSACTION;"
  | .commit => "COMMIT;"
  | .insert t vs => make_insert t vs

/-- Python subscript into a decoded JSON object: some field value when the
value is an object carrying the field, none otherwise. -/
def objGet : JsonVal → String → Option JsonVal
  | .obj fs, k => aget fs k
  | _, _ => none

/-- schemautil.Data for the graph dataset: owning table or id, originating
query, decoded payload. -/
structure GData where
  table : String
  query : String
  data : JsonVal

/-- schemautil.Connection: table, owning id, connection name, payload. -/
structure GConn where
  table : String
  id : String
  name : String
  data : JsonVal

/-- schemautil.GraphDataset: object Data keyed by id, plus the Connection
records. -/
structure GraphDataset where
  data : List (String × GData)
  connections : List GConn

/-- A for-loop that fails the whole computation when one element does
(models the Python loop raising KeyError on a malformed payload). -/
def omap {α β : Type} (f : α → Option β) : List α → Option (List β)
  | [] => some []
  | x :: t =>
    match f x, omap f t with
    | some y, some ys => some (y :: ys)
    | _, _ => none

/-- The object INSERT of GraphDataset.to_sql: id subscripted from the
payload (none is the Python KeyError on a missing id), alias via .get on
the designated alias field (None when absent), and the payload re-encoded
by json.dumps. -/
def objInsert (d : GData) : Option Stmt :=
  match objGet d.data "id" with
  | some idv =>
      some (.insert "graph_objects"
        [pyOfJson idv,
         (match objGet d.data ALIAS_FIELD with
          | some a => pyOfJson a
          | none => .pynone),
         .pystr (dumpsVal d.data)])
  | none => none

/-- The connection INSERTs of GraphDataset.to_sql: one statement per element
of the connection payload's data list, with owning id, connection name and
the element re-encoded by json.dumps. -/
def connInserts (c : GConn) : Option (List Stmt) :=
  match objGet c.data "data" with
  | some (.arr xs) =>
      some (xs.map (fun o =>
        Stmt.insert "graph_connections"
          [.pystr c.id, .pystr c.name, .pystr (dumpsVal o)]))
  | _ => none

/-- GraphDataset.to_sql at statement granularity: one transaction wrapping
the object INSERTs (in data order) then the connection INSERTs. -/
def GraphDataset.to_sql_stmts (ds : GraphDataset) : Option (List Stmt) :=
  match omap objInsert (ds.data.map Prod.snd),
        omap connInserts ds.connections with
  | some objs, some conns =>
      some (Stmt.beginT :: objs ++ conns.flatten ++ [Stmt.commit])
  | _, _ => none

/-- GraphDataset.to_sql as the emitted SQL text. -/
def GraphDataset.to_sql (ds : GraphDataset) : Option String :=
  ds.to_sql_stmts.map (fun stmts =>
    String.intercalate "\n" (stmts.map Stmt.render))

/-! ### Association-list and python-set lemmas -/

theorem aget_aset {β : Type} (l : List (String × β)) (k : String) (v : β)
    (n : String) :
    aget (aset l k v) n = if k = n then some v else aget l n := by
  induction l with
  | nil =>
    by_cases h : k = n <;> simp [aset, aget, h]
  | cons p t ih =>
    obtain ⟨k0, v0⟩ := p
    by_cases h0 : k0 = k
    · subst h0
      by_cases h : k0 = n <;> simp [aset, aget, h]
    · by_cases h : k0 = n
      · subst h
        have hk : ¬ k = k0 := fun hh => h0 hh.symm
        simp [aset, aget, h0, hk]
      · simp [aset, aget, h0, h, ih]

theorem aget_aupd (l : List (String × List JsonVal)) (k : String) (v : JsonVal)
    (n : String) :
    aget (aupd l k v) n =
      if k = n then (aget l n).map (fun xs => xs ++ [v]) else aget l n := by
  induction l with
  | nil => by_cases h : k = n <;> simp [aupd, aget, h]
  | cons p t ih =>
    obtain ⟨k0, v0⟩ := p
    have hmap : aupd ((k0, v0) :: t) k v =
        (if k0 = k then (k0, v0 ++ [v]) else (k0, v0)) :: aupd t k v := by
      simp [aupd]
    rw [hmap]
    by_cases h0 : k0 = k
    · subst h0
      rw [if_pos rfl]
      by_cases h : k0 = n
      · subst h
        simp [aget]
      · simp [aget, h, ih]
    · rw [if_neg h0]
      by_cases h : k0 = n
      · subst h
        have hk : ¬ k = k0 := fun hh => h0 hh.symm
        simp [aget, hk]
      · simp [aget, h0, h, ih]

theorem keys_aupd (l : List (String × List JsonVal)) (k : String)
    (v : JsonVal) : (aupd l k v).map Prod.fst = l.map Prod.fst := by
  induction l with
  | nil => rfl
  | cons p t ih =>
    by_cases h : p.1 = k <;> simp [aupd, h] <;>
      simpa [aupd] using ih

theorem mem_keys_iff_aget_isSome {β : Type} (l : List (String × β))
    (n : String) : n ∈ l.map Prod.fst ↔ (aget l n).isSome := by
  induction l with
  | nil => simp [aget]
  | cons p t ih =>
    obtain ⟨k0, v0⟩ := p
    by_cases h : k0 = n
    · subst h
      simp [aget]
    · have hne : ¬ n = k0 := fun hh => h hh.symm
      simp [aget, h, hne, ih]

theorem aget_foldl_aset {ρ β : Type} (f : ρ → String) (g : ρ → β) :
    ∀ (rows : List ρ) (a0 : List (String × β)) (n : String),
      aget (rows.foldl (fun acc r => aset acc (f r) (g r)) a0) n =
        (match rows.reverse.find? (fun r => decide (f r = n)) with
          | some r => some (g r)
          | none => aget a0 n) := by
  intro rows
  induction rows with
  | nil => intro a0 n; simp
  | cons r t ih =>
    intro a0 n
    have hsplit :
        (r :: t).reverse.find? (fun r => decide (f r = n)) =
          (t.reverse.find? (fun r => decide (f r = n))).or
            ([r].find? (fun r => decide (f r = n))) := by
      rw [List.reverse_cons, List.find?_append]
    rw [List.foldl_cons, ih, hsplit]
    cases hf : t.reverse.find? (fun r => decide (f r = n)) with
    | some r0 => simp [Option.or]
    | none =>
      by_cases h : f r = n
      · simp [Option.or, List.find?, h, aget_aset]
      · simp [Option.or, List.find?, h, aget_aset]

theorem aget_foldl_aset_const {β : Type} (c : β) :
    ∀ (names : List String) (a0 : List (String × β)) (m : String),
      aget (names.foldl (fun a n => aset a n c) a0) m =
        if m ∈ names then some c else aget a0 m := by
  intro names
  induction names with
  | nil => intro a0 m; simp
  | cons n t ih =>
    intro a0 m
    rw [List.foldl_cons, ih]
    by_cases ht : m ∈ t
    · simp [ht]
    · by_cases hn : n = m
      · subst hn
        simp [ht, aget_aset]
      · have : ¬ m = n := fun hh => hn hh.symm
        simp [ht, this, hn, aget_aset]

theorem aget_foldl_aupd {ρ : Type} (f : ρ → String) (g : ρ → JsonVal) :
    ∀ (rows : List ρ) (resp : List (String × List JsonVal)) (m : String),
      aget (rows.foldl (fun a r => aupd a (f r) (g r)) resp) m =
        (aget resp m).map
          (fun xs => xs ++ (rows.filter (fun r => decide (f r = m))).map g) := by
  intro rows
  induction rows with
  | nil =>
    intro resp m
    cases h : aget resp m <;> simp [h]
  | cons r t ih =>
    intro resp m
    rw [List.foldl_cons, ih, aget_aupd]
    by_cases h : f r = m
    · cases hresp : aget resp m <;> simp [h, hresp, List.filter_cons]
    · cases hresp : aget resp m <;> simp [h, hresp, List.filter_cons]

theorem keys_foldl_aupd {ρ : Type} (f : ρ → String) (g : ρ → JsonVal) :
    ∀ (rows : List ρ) (resp : List (String × List JsonVal)),
      (rows.foldl (fun a r => aupd a (f r) (g r)) resp).map Prod.fst =
        resp.map Prod.fst := by
  intro rows
  induction rows with
  | nil => intro resp; rfl
  | cons r t ih =>
    intro resp
    rw [List.foldl_cons, ih, keys_aupd]

theorem mem_pyUnion {α : Type} [DecidableEq α] (x : α) :
    ∀ (l acc : List α), x ∈ pyUnion acc l ↔ x ∈ acc ∨ x ∈ l := by
  intro l
  induction l with
  | nil => intro acc; simp [pyUnion]
  | cons y t ih =>
    intro acc
    by_cases h : y ∈ acc
    · rw [show pyUnion acc (y :: t) = pyUnion acc t by simp [pyUnion, h]]
      rw [ih]
      constructor
      · rintro (hx | hx)
        · exact Or.inl hx
        · exact Or.inr (List.mem_cons_of_mem _ hx)
      · rintro (hx | hx)
        · exact Or.inl hx
        · rcases List.mem_cons.mp hx with rfl | hx
          · exact Or.inl h
          · exact Or.inr hx
    · rw [show pyUnion acc (y :: t) = pyUnion (acc ++ [y]) t by
        simp [pyUnion, h]]
      rw [ih]
      simp [or_assoc]

theorem mem_pySet {α : Type} [DecidableEq α] (x : α) (l : List α) :
    x ∈ pySet l ↔ x ∈ l := by
  simp [pySet, mem_pyUnion]

theorem nodup_pyUnion {α : Type} [DecidableEq α] :
    ∀ (l acc : List α), acc.Nodup → (pyUnion acc l).Nodup := by
  intro l
  induction l with
  | nil => intro acc h; simpa [pyUnion] using h
  | cons y t ih =>
    intro acc h
    by_cases hy : y ∈ acc
    · rw [show pyUnion acc (y :: t) = pyUnion acc t by simp [pyUnion, hy]]
      exact ih acc h
    · rw [show pyUnion acc (y :: t) = pyUnion (acc ++ [y]) t by
        simp [pyUnion, hy]]
      exact ih _ (by simp [List.nodup_append, h, hy])

theorem nodup_pySet {α : Type} [DecidableEq α] (l : List α) :
    (pySet l).Nodup :=
  nodup_pyUnion l [] List.nodup_nil

theorem pyUnion_ne_nil {α : Type} [DecidableEq α] :
    ∀ (l acc : List α), acc ≠ [] → pyUnion acc l ≠ [] := by
  intro l
  induction l with
  | nil => intro acc h; simpa [pyUnion] using h
  | cons y t ih =>
    intro acc h
    by_cases hy : y ∈ acc
    · rw [show pyUnion acc (y :: t) = pyUnion acc t by simp [pyUnion, hy]]
      exact ih acc h
    · rw [show pyUnion acc (y :: t) = pyUnion (acc ++ [y]) t by
        simp [pyUnion, hy]]
      exact ih _ (by simp)

theorem pySet_ne_nil {α : Type} [DecidableEq α] (l : List α) (h : l ≠ []) :
    pySet l ≠ [] := by
  cases l with
  | nil => exact absurd rfl h
  | cons y t =>
    rw [show pySet (y :: t) = pyUnion [y] t by simp [pySet, pyUnion]]
    exact pyUnion_ne_nil t [y] (by simp)

theorem splitChars_ne_nil (sep : Char) (cs : List Char) :
    splitChars sep cs ≠ [] := by
  cases cs with
  | nil => simp [splitChars]
  | cons c t =>
    by_cases h : c = sep
    · simp [splitChars, h]
    · simp only [splitChars, h, if_false]
      cases hr : splitChars sep t with
      | nil => simp
      | cons r rs => simp

theorem pySplit_ne_nil (s : String) (sep : Char) : pySplit s sep ≠ [] := by
  simp only [pySplit, ne_eq, List.map_eq_nil_iff]
  exact splitChars_ne_nil sep s.data

theorem mem_init_all_connections (x : String) :
    ∀ (conns : List (String × List String)),
      x ∈ init_all_connections conns ↔ ∃ p ∈ conns, x ∈ p.2 := by
  have main : ∀ (lists : List (List String)) (acc : List String),
      x ∈ lists.foldl pyUnion acc ↔ x ∈ acc ∨ ∃ l ∈ lists, x ∈ l := by
    intro lists
    induction lists with
    | nil => intro acc; simp
    | cons l t ih =>
      intro acc
      rw [List.foldl_cons, ih, mem_pyUnion]
      constructor
      · rintro ((hx | hx) | ⟨l0, hl0, hx⟩)
        · exact Or.inl hx
        · exact Or.inr ⟨l, List.mem_cons_self _ _, hx⟩
        · exact Or.inr ⟨l0, List.mem_cons_of_mem _ hl0, hx⟩
      · rintro (hx | ⟨l0, hl0, hx⟩)
        · exact Or.inl (Or.inl hx)
        · rcases List.mem_cons.mp hl0 with rfl | hl0
          · exact Or.inl (Or.inr hx)
          · exact Or.inr ⟨l0, hl0, hx⟩
  intro conns
  rw [init_all_connections, main]
  constructor
  · rintro (hx | ⟨l, hl, hx⟩)
    · simp at hx
    · rcases List.mem_map.mp hl with ⟨p, hp, rfl⟩
      exact ⟨p, hp, hx⟩
  · rintro ⟨p, hp, hx⟩
    exact Or.inr ⟨p.2, List.mem_map_of_mem _ hp, hx⟩

/-! ### prepare_ids characterizations -/

theorem prepare_ids_eq_ok (db : List ObjRow) (req : Request) (ns : List String)
    (hns : requestNames req = .ok ns) (hnf : notFoundNames db ns = []) :
    prepare_ids db req = .ok ⟨buildNameDict db ns, req.path_id != ""⟩ := by
  simp [prepare_ids, hns, hnf]

theorem prepare_ids_alias_error (db : List ObjRow) (req : Request)
    (ns : List String) (hns : requestNames req = .ok ns)
    (ha : (notFoundNames db ns).filter (fun n => !(is_int n)) ≠ []) :
    prepare_ids db req = .error (.graph (.aliasNotFound
      (String.intercalate ","
        ((notFoundNames db ns).filter (fun n => !(is_int n)))))) := by
  have hnf : notFoundNames db ns ≠ [] := by
    intro h
    rw [h] at ha
    exact ha rfl
  simp [prepare_ids, hns, hnf, ha]

theorem prepare_ids_object_error (db : List ObjRow) (req : Request)
    (ns : List String) (hns : requestNames req = .ok ns)
    (hnf : notFoundNames db ns ≠ [])
    (ha : ∀ n ∈ notFoundNames db ns, is_int n = true)
    (hp : req.path_id ≠ "") :
    prepare_ids db req = .error (.graph .objectNotFound) := by
  have hfil : (notFoundNames db ns).filter (fun n => !(is_int n)) = [] := by
    rw [List.filter_eq_nil_iff]
    intro n hn
    simp [ha n hn]
  simp [prepare_ids, hns, hnf, hfil, hp]

theorem prepare_ids_objects_error (db : List ObjRow) (req : Request)
    (ns : List String) (hns : requestNames req = .ok ns)
    (hnf : notFoundNames db ns ≠ [])
    (ha : ∀ n ∈ notFoundNames db ns, is_int n = true)
    (hp : req.path_id = "") :
    prepare_ids db req = .error (.graph .objectsNotFound) := by
  have hfil : (notFoundNames db ns).filter (fun n => !(is_int n)) = [] := by
    rw [List.filter_eq_nil_iff]
    intro n hn
    simp [ha n hn]
  simp [prepare_ids, hns, hnf, hfil, hp]

theorem prepare_ids_ok_char (db : List ObjRow) (req : Request)
    (ns : List String) (nd : NameDict)
    (hns : requestNames req = .ok ns)
    (hok : prepare_ids db req = .ok nd) :
    nd.entries = buildNameDict db ns ∧ nd.single = (req.path_id != "") ∧
      notFoundNames db ns = [] := by
  by_cases hnf : notFoundNames db ns = []
  · have := prepare_ids_eq_ok db req ns hns hnf
    rw [this] at hok
    cases hok
    exact ⟨rfl, rfl, hnf⟩
  · exfalso
    by_cases ha : (notFoundNames db ns).filter (fun n => !(is_int n)) ≠ []
    · rw [prepare_ids_alias_error db req ns hns ha] at hok
      cases hok
    · have hall : ∀ n ∈ notFoundNames db ns, is_int n = true := by
        intro n hn
        by_contra hno
        apply ha
        intro hfil
        have : n ∈ ([] : List String) := by
          rw [← hfil]
          rw [List.mem_filter]
          exact ⟨hn, by simp [Bool.not_eq_true] at hno ⊢; exact hno⟩
        cases this
      by_cases hp : req.path_id = ""
      · rw [prepare_ids_objects_error db req ns hns hnf hall hp] at hok
        cases hok
      · rw [prepare_ids_object_error db req ns hns hnf hall hp] at hok
        cases hok

/-! ### The example fixture of graph_test.py -/

/-- The payload stored for id 1 / alias alice. -/
def aliceObj : JsonVal := .obj [("id", .str "1"), ("foo", .str "bar")]

/-- The payload stored for id 2 / alias bob. -/
def bobObj : JsonVal :=
  .obj [("id", .str "2"), ("inner", .obj [("foo", .str "baz")])]

/-- The graph_objects rows inserted by graph_test.TestBase.setUp. -/
def exDb : List ObjRow :=
  [⟨"1", some "alice", aliceObj⟩, ⟨"2", some "bob", bobObj⟩]

/-- The graph_connections rows inserted by graph_test.TestBase.setUp. -/
def exCdb : List ConnRow :=
  [⟨"1", "albums", .obj [("id", .str "3")]⟩,
   ⟨"1", "albums", .obj [("id", .str "4")]⟩,
   ⟨"2", "albums", .obj [("id", .str "5")]⟩,
   ⟨"1", "picture", .str "http://alice/picture"⟩,
   ⟨"2", "picture", .str "http://bob/picture"⟩]

/-- C1: a request whose requested-name set resolves to a non-empty
not-found set raises exactly one of three errors: AliasNotFound with the
comma-joined non-numeric not-found names (kept in request order by the
embedding) when any not-found name is non-numeric; else ObjectNotFound for
the single-identifier form; else ObjectsNotFound. -/
theorem prepare_ids_not_found_trichotomy
    (db : List ObjRow) (req : Request) (ns : List String)
    (hns : requestNames req = .ok ns)
    (hnf : notFoundNames db ns ≠ []) :
    ((∃ n ∈ notFoundNames db ns, is_int n = false) →
      prepare_ids db req = .error (.graph (.aliasNotFound
        (String.intercalate ","
          ((notFoundNames db ns).filter (fun n => !(is_int n))))))) ∧
    ((∀ n ∈ notFoundNames db ns, is_int n = true) → req.path_id ≠ "" →
      prepare_ids db req = .error (.graph .objectNotFound)) ∧
    ((∀ n ∈ notFoundNames db ns, is_int n = true) → req.path_id = "" →
      prepare_ids db req = .error (.graph .objectsNotFound)) ∧
    (req.path_id = "" → ∀ s, req.ids = some s → ns = pySet (pySplit s ',')) := by
  refine ⟨?_, ?_, ?_, ?_⟩
  · rintro ⟨n, hn, hni⟩
    apply prepare_ids_alias_error db req ns hns
    intro hfil
    have : n ∈ ([] : List String) := by
      rw [← hfil, List.mem_filter]
      exact ⟨hn, by simp [hni]⟩
    cases this
  · exact fun ha hp => prepare_ids_object_error db req ns hns hnf ha hp
  · exact fun ha hp => prepare_ids_objects_error db req ns hns hnf ha hp
  · intro hp s hs
    rw [requestNames, hs, hp] at hns
    simp only [ne_eq, not_true_eq_false, if_false, ite_false] at hns
    rw [requestNames.checkNames] at hns
    split at hns
    · cases hns
    · cases hns
      rfl

/-- Witness for C1 at the two-missing-alias request of graph_test:
ids=foo,bar resolves nothing, both names are non-numeric, and the raised
error carries them comma-joined in request order. -/
theorem prepare_ids_not_found_trichotomy_witness :
    requestNames ⟨"", some "foo,bar"⟩ = .ok ["foo", "bar"] ∧
    notFoundNames exDb ["foo", "bar"] ≠ [] ∧
    prepare_ids exDb ⟨"", some "foo,bar"⟩ =
      .error (.graph (.aliasNotFound "foo,bar")) := by
  refine ⟨rfl, by decide, ?_⟩
  exact (prepare_ids_not_found_trichotomy exDb ⟨"", some "foo,bar"⟩
    ["foo", "bar"] rfl (by decide)).1 ⟨"foo", by decide, by decide⟩

/-! ### Resolution and object-response characterizations -/

theorem aget_buildNameDict (db : List ObjRow) (ns : List String) (n : String) :
    aget (buildNameDict db ns) n =
      (match (resolveRows db ns).reverse.find? (fun r => decide (r.id = n)) with
       | some r => some (requestedKey ns r)
       | none => none) := by
  rw [buildNameDict, aget_foldl_aset (fun r : ObjRow => r.id)
    (requestedKey ns) (resolveRows db ns) [] n]
  cases hf : (resolveRows db ns).reverse.find? (fun r => decide (r.id = n)) <;>
    simp [hf, aget]

theorem aget_ObjectHandler_get (db : List ObjRow) (nd : NameDict)
    (n : String) :
    aget (ObjectHandler_get db nd) n =
      (match (db.filter (fun r =>
          decide (r.id ∈ nd.entries.map Prod.fst))).reverse.find?
            (fun r => decide (agetD nd.entries r.id "" = n)) with
       | some r => some r.data
       | none => none) := by
  simp only [ObjectHandler_get]
  rw [aget_foldl_aset (fun r : ObjRow => agetD nd.entries r.id "")
    (fun r : ObjRow => r.data)
    (db.filter (fun r => decide (r.id ∈ nd.entries.map Prod.fst))) [] n]
  cases hf : (db.filter (fun r =>
      decide (r.id ∈ nd.entries.map Prod.fst))).reverse.find?
        (fun r => decide (agetD nd.entries r.id "" = n)) <;> simp [hf, aget]

/-- every possible shape of a requested key. -/
theorem requestedKey_cases (ns : List String) (x : ObjRow) :
    (∃ b, x.alias_ = some b ∧ b ∈ ns ∧ requestedKey ns x = b) ∨
      requestedKey ns x = x.id := by
  unfold requestedKey
  cases hx : x.alias_ with
  | none => exact Or.inr rfl
  | some b =>
    by_cases hb : b ∈ ns
    · exact Or.inl ⟨b, rfl, hb, by simp [hb]⟩
    · simp [hb]

/-- a NameDict entry always comes from a matched database row. -/
theorem buildNameDict_some (db : List ObjRow) (ns : List String)
    (i k : String) (h : aget (buildNameDict db ns) i = some k) :
    ∃ y ∈ db, y.id = i ∧ requestedKey ns y = k := by
  rw [aget_buildNameDict] at h
  cases hf : (resolveRows db ns).reverse.find? (fun r => decide (r.id = i)) with
  | none => rw [hf] at h; cases h
  | some y =>
    rw [hf] at h
    cases h
    have hymem := List.mem_reverse.mp (List.mem_of_find?_eq_some hf)
    have hydb : y ∈ db :=
      (List.mem_filter.mp (by simpa [resolveRows] using hymem)).1
    have hid : y.id = i := by simpa using List.find?_some hf
    exact ⟨y, hydb, hid, rfl⟩

/-- Bool form: the alias of a row is non-numeric. -/
def aliasNonInt (r : ObjRow) : Bool :=
  match r.alias_ with
  | some b => !(is_int b)
  | none => true

/-- Bool form: two rows sharing an alias share an id. -/
def aliasUniq2 (r1 r2 : ObjRow) : Bool :=
  match r1.alias_, r2.alias_ with
  | some b1, some b2 => if b1 = b2 then decide (r1.id = r2.id) else true
  | _, _ => true

/-- The stored-data invariants of the graph_objects table assumed by the
alias-keying claim: ids unique and numeric, aliases non-numeric (the
resolution heuristic of the spec) and unique. -/
def DBwf (db : List ObjRow) : Prop :=
  (db.map ObjRow.id).Nodup ∧
  (∀ r ∈ db, is_int r.id = true) ∧
  (∀ r ∈ db, aliasNonInt r = true) ∧
  (∀ r1 ∈ db, ∀ r2 ∈ db, aliasUniq2 r1 r2 = true)

/-- C2: whenever a stored object's alias is among the requested names, the
alias is that object's key in the NameDict and in the object response, and
the object's numeric id keys nothing — so one multi-id request naming both
the id and the alias yields exactly one entry for the object, keyed by the
alias. -/
theorem alias_preferred_keying
    (db : List ObjRow) (req : Request) (ns : List String) (nd : NameDict)
    (r : ObjRow) (a : String)
    (hwf : DBwf db)
    (hns : requestNames req = .ok ns)
    (hok : prepare_ids db req = .ok nd)
    (hr : r ∈ db) (ha : r.alias_ = some a) (hain : a ∈ ns) :
    aget nd.entries r.id = some a ∧
    aget (ObjectHandler_get db nd) a = some r.data ∧
    aget (ObjectHandler_get db nd) r.id = none := by
  obtain ⟨hids_nodup, hids_int, halias_noint0, halias_uniq0⟩ := hwf
  have hinj := List.inj_on_of_nodup_map hids_nodup
  have halias_nonint : ∀ x ∈ db, ∀ b, x.alias_ = some b → is_int b = false := by
    intro x hx b hb
    have := halias_noint0 x hx
    rw [aliasNonInt, hb] at this
    simpa using this
  have halias_uniq : ∀ x1 ∈ db, ∀ x2 ∈ db, ∀ b, x1.alias_ = some b →
      x2.alias_ = some b → x1.id = x2.id := by
    intro x1 h1 x2 h2 b hb1 hb2
    have := halias_uniq0 x1 h1 x2 h2
    simp [aliasUniq2, hb1, hb2] at this
    exact this
  obtain ⟨hentries, hsingle, hnf⟩ := prepare_ids_ok_char db req ns nd hns hok
  have hrmem : r ∈ resolveRows db ns := by
    rw [resolveRows, List.mem_filter]
    exact ⟨hr, by simp [rowMatches, ha, hain]⟩
  have hkey_r : requestedKey ns r = a := by
    simp [requestedKey, ha, hain]
  have hconj1 : aget nd.entries r.id = some a := by
    rw [hentries, aget_buildNameDict]
    have hex : ((resolveRows db ns).reverse.find?
        (fun x => decide (x.id = r.id))).isSome := by
      rw [List.find?_isSome]
      exact ⟨r, List.mem_reverse.mpr hrmem, by simp⟩
    obtain ⟨y, hy⟩ := Option.isSome_iff_exists.mp hex
    rw [hy]
    have hydb : y ∈ db := by
      have := List.mem_reverse.mp (List.mem_of_find?_eq_some hy)
      exact (List.mem_filter.mp (by simpa [resolveRows] using this)).1
    have hyid : y.id = r.id := by simpa using List.find?_some hy
    have hyr : y = r := hinj hydb hr hyid
    simp [hyr, hkey_r]
  have hrid_ne_a : is_int a = false := halias_nonint r hr a ha
  have huniq : ∀ x ∈ db, (aget nd.entries x.id).isSome →
      agetD nd.entries x.id "" = a → x = r := by
    intro x hx hsome hkx
    obtain ⟨k, hk⟩ := Option.isSome_iff_exists.mp hsome
    have hka : k = a := by
      rw [agetD, hk] at hkx
      simpa using hkx
    rw [hentries] at hk
    obtain ⟨y, hydb, hyid, hykey⟩ := buildNameDict_some db ns x.id k hk
    have hykeya : requestedKey ns y = a := by rw [hykey, hka]
    have hyx : y = x := hinj hydb hx hyid
    rcases requestedKey_cases ns y with ⟨b, hb, hbns, hbk⟩ | hidk
    · have hba : b = a := by rw [← hbk, hykeya]
      rw [hba] at hb
      have hidseq : y.id = r.id := halias_uniq y hydb r hr a hb ha
      exact hyx.symm.trans (hinj hydb hr hidseq)
    · exfalso
      have hya : y.id = a := by rw [← hidk, hykeya]
      have h2 : is_int y.id = true := hids_int y hydb
      rw [hya, hrid_ne_a] at h2
      cases h2
  have hkeys : r.id ∈ nd.entries.map Prod.fst :=
    (mem_keys_iff_aget_isSome nd.entries r.id).mpr (by rw [hconj1]; rfl)
  have hrmem2 : r ∈ db.filter
      (fun x => decide (x.id ∈ nd.entries.map Prod.fst)) := by
    rw [List.mem_filter]
    exact ⟨hr, by simpa using hkeys⟩
  have hconj2 : aget (ObjectHandler_get db nd) a = some r.data := by
    rw [aget_ObjectHandler_get]
    have hex : ((db.filter
        (fun x => decide (x.id ∈ nd.entries.map Prod.fst))).reverse.find?
          (fun x => decide (agetD nd.entries x.id "" = a))).isSome := by
      rw [List.find?_isSome]
      refine ⟨r, List.mem_reverse.mpr hrmem2, ?_⟩
      simp [agetD, hconj1]
    obtain ⟨y, hy⟩ := Option.isSome_iff_exists.mp hex
    rw [hy]
    have hymem := List.mem_reverse.mp (List.mem_of_find?_eq_some hy)
    have hydb : y ∈ db := (List.mem_filter.mp hymem).1
    have hykeys : y.id ∈ nd.entries.map Prod.fst := by
      have := (List.mem_filter.mp hymem).2
      simpa using this
    have hysome : (aget nd.entries y.id).isSome :=
      (mem_keys_iff_aget_isSome nd.entries y.id).mp hykeys
    have hpred : agetD nd.entries y.id "" = a := by
      simpa using List.find?_some hy
    have hyr : y = r := huniq y hydb hysome hpred
    simp [hyr]
  have hconj3 : aget (ObjectHandler_get db nd) r.id = none := by
    rw [aget_ObjectHandler_get]
    have hnone : ((db.filter
        (fun x => decide (x.id ∈ nd.entries.map Prod.fst))).reverse.find?
          (fun x => decide (agetD nd.entries x.id "" = r.id))) = none := by
      rw [List.find?_eq_none]
      intro x hxmem
      simp only [decide_eq_true_eq]
      intro hpred
      have hxdb : x ∈ db := (List.mem_filter.mp (List.mem_reverse.mp hxmem)).1
      have hxkeys : x.id ∈ nd.entries.map Prod.fst := by
        have := (List.mem_filter.mp (List.mem_reverse.mp hxmem)).2
        simpa using this
      have hxsome : (aget nd.entries x.id).isSome :=
        (mem_keys_iff_aget_isSome nd.entries x.id).mp hxkeys
      obtain ⟨k, hk⟩ := Option.isSome_iff_exists.mp hxsome
      have hkrid : k = r.id := by
        rw [agetD, hk] at hpred
        simpa using hpred
      rw [hentries] at hk
      obtain ⟨y, hydb, hyid, hykey⟩ := buildNameDict_some db ns x.id k hk
      have hykeyr : requestedKey ns y = r.id := by rw [hykey, hkrid]
      rcases requestedKey_cases ns y with ⟨b, hb, hbns, hbk⟩ | hidk
      · have hba : b = r.id := by rw [← hbk, hykeyr]
        have h1 : is_int b = false := halias_nonint y hydb b hb
        have h2 : is_int r.id = true := hids_int r hr
        rw [hba] at h1
        rw [h1] at h2
        cases h2
      · have hyidr : y.id = r.id := by rw [← hidk, hykeyr]
        have hyr : y = r := hinj hydb hr hyidr
        have hcontr : a = r.id := by
          rw [← hkey_r, ← hyr]
          exact hidk
        have h2 : is_int r.id = true := hids_int r hr
        rw [← hcontr, hrid_ne_a] at h2
        cases h2
    rw [hnone]
  exact ⟨hconj1, hconj2, hconj3⟩

/-- The graph_objects row of alice in the test fixture. -/
def aliceRow : ObjRow := ⟨"1", some "alice", aliceObj⟩

/-- Witness for C2 at the ids=alice,1 request of graph_test: the one entry
for alice is keyed by the alias, never by the id. -/
theorem alias_preferred_keying_witness :
    aget (NameDict.mk [("1", "alice")] false).entries "1" = some "alice" ∧
    aget (ObjectHandler_get exDb ⟨[("1", "alice")], false⟩) "alice" =
      some aliceRow.data ∧
    aget (ObjectHandler_get exDb ⟨[("1", "alice")], false⟩) "1" = none :=
  alias_preferred_keying exDb ⟨"", some "alice,1"⟩ ["alice", "1"]
    ⟨[("1", "alice")], false⟩ aliceRow "alice"
    ⟨by decide, by decide, by decide, by decide⟩ rfl rfl
    (List.mem_cons_self _ _) rfl (by decide)

/-- C3: the outer request boundary converts every GraphError raised during
resolution or retrieval into a status-200 response whose body is the
error's rendering — a JSON error object when the kind carries a type tag,
the bare message text otherwise — and no domain error ever yields a
non-200 status. -/
theorem graph_errors_render_with_status_200
    (odb : List ObjRow) (cdb : List ConnRow) (allConns : List String)
    (me : Int) (req : Request) (connection : String) (e : GraphError) :
    (∀ t, e.type = some t → e.render = .jsonObj e.message t) ∧
    (e.type = none → e.render = .bare e.message) ∧
    (prepare_ids odb req = .error (.graph e) →
      ObjectHandler_handle odb me req = .response ⟨200, .errorText e.render⟩ ∧
      ConnectionHandler_handle odb cdb allConns me req connection =
        .response ⟨200, .errorText e.render⟩) ∧
    (∀ nd, prepare_ids odb req = .ok nd →
      ConnectionHandler_get allConns cdb nd connection = .error e →
      ConnectionHandler_handle odb cdb allConns me req connection =
        .response ⟨200, .errorText e.render⟩) ∧
    (∀ r er, (ObjectHandler_handle odb me req = .response r ∨
        ConnectionHandler_handle odb cdb allConns me req connection =
          .response r) →
      r.body = .errorText er → r.status = 200) := by
  refine ⟨?_, ?_, ?_, ?_, ?_⟩
  · intro t ht
    rw [GraphError.render, ht]
  · intro ht
    rw [GraphError.render, ht]
  · intro hp
    exact ⟨by simp [ObjectHandler_handle, hp],
      by simp [ConnectionHandler_handle, hp]⟩
  · intro nd hok hget
    simp [ConnectionHandler_handle, hok, hget]
  · intro r er hro hbody
    rcases hro with hro | hro
    · cases hp : prepare_ids odb req with
      | error pe =>
        cases pe with
        | graph e0 =>
          simp only [ObjectHandler_handle, hp] at hro
          injection hro with h
          rw [← h]
        | typeError =>
          simp only [ObjectHandler_handle, hp] at hro
          injection hro
      | ok nd =>
        simp only [ObjectHandler_handle, hp] at hro
        unfold shapeResponse at hro
        split at hro
        · split at hro
          · injection hro with h; rw [← h]
          · injection hro with h; rw [← h]
          · injection hro
        · injection hro with h; rw [← h]
    · cases hp : prepare_ids odb req with
      | error pe =>
        cases pe with
        | graph e0 =>
          simp only [ConnectionHandler_handle, hp] at hro
          injection hro with h
          rw [← h]
        | typeError =>
          simp only [ConnectionHandler_handle, hp] at hro
          injection hro
      | ok nd =>
        simp only [ConnectionHandler_handle, hp] at hro
        cases hg : ConnectionHandler_get allConns cdb nd connection with
        | error e0 =>
          rw [hg] at hro
          injection hro with h
          rw [← h]
        | ok cr =>
          rw [hg] at hro
          cases cr with
          | redirect url =>
            simp only at hro
            injection hro with h
            rw [← h] at hbody
            simp at hbody
          | mapping m =>
            simp only at hro
            unfold shapeResponse at hro
            split at hro
            · split at hro
              · injection hro with h; rw [← h]
              · injection hro with h; rw [← h]
              · injection hro
            · injection hro with h; rw [← h]

/-- Witness for C3 at the missing-id request GET /9 of graph_test: the
ObjectNotFound error renders as its bare message with status 200. -/
theorem graph_errors_render_with_status_200_witness :
    ObjectHandler_handle exDb 1 ⟨"9", none⟩ =
      .response ⟨200, .errorText GraphError.objectNotFound.render⟩ :=
  ((graph_errors_render_with_status_200 exDb exCdb [] 1 ⟨"9", none⟩ "albums"
    .objectNotFound).2.2.1 rfl).1

/-- C4: a picture-connection request with at least one matching row issues
an HTTP 302 redirect whose target is the URL decoded from the first row
the query returned overall, and no JSON body is produced. -/
theorem picture_redirects
    (odb : List ObjRow) (cdb : List ConnRow) (allConns : List String)
    (me : Int) (req : Request) (nd : NameDict) (r0 : ConnRow)
    (rest : List ConnRow)
    (hok : prepare_ids odb req = .ok nd)
    (hmem : REDIRECT_CONNECTION ∈ allConns)
    (hrows : matchingRows cdb (nd.entries.map Prod.fst) REDIRECT_CONNECTION =
      r0 :: rest) :
    ConnectionHandler_handle odb cdb allConns me req REDIRECT_CONNECTION =
      .response ⟨302, .redirectTo r0.data⟩ ∧
    (∀ v, RespBody.redirectTo r0.data ≠ .jsonBody v) := by
  constructor
  · simp only [ConnectionHandler_handle, hok]
    simp [ConnectionHandler_get, hmem, hrows]
  · intro v
    simp

/-- The connections declared by the example schema used in the witnesses. -/
def exSchemaConns : List (String × List String) :=
  [("user", ["albums", "family", "picture"])]

/-- Witness for C4 at GET /alice/picture of graph_test: the redirect goes to
the URL stored in alice's picture row. -/
theorem picture_redirects_witness :
    ConnectionHandler_handle exDb exCdb (init_all_connections exSchemaConns)
      1 ⟨"alice", none⟩ REDIRECT_CONNECTION =
      .response ⟨302, .redirectTo (.str "http://alice/picture")⟩ :=
  (picture_redirects exDb exCdb (init_all_connections exSchemaConns) 1
    ⟨"alice", none⟩ ⟨[("1", "alice")], true⟩
    ⟨"1", "picture", .str "http://alice/picture"⟩ [] rfl (by decide) rfl).1

/-- C5: an unrecognized connection name — one outside the union of the
schema's per-table connection-name sets — raises UnknownPath carrying the
name; otherwise (outside the picture-redirect case) the result maps every
resolved key to the decoded payloads of its matching rows in query order,
the list being empty for a key with no rows, and contains no other keys. -/
theorem connection_result_shape
    (schemaConns : List (String × List String)) (cdb : List ConnRow)
    (nd : NameDict) (connection : String) :
    (connection ∈ init_all_connections schemaConns ↔
      ∃ p ∈ schemaConns, connection ∈ p.2) ∧
    (connection ∉ init_all_connections schemaConns →
      ConnectionHandler_get (init_all_connections schemaConns) cdb nd
        connection = .error (.unknownPath connection)) ∧
    (connection ∈ init_all_connections schemaConns →
      ¬(connection = REDIRECT_CONNECTION ∧
        matchingRows cdb (nd.entries.map Prod.fst) connection ≠ []) →
      ∃ m, ConnectionHandler_get (init_all_connections schemaConns) cdb nd
          connection = .ok (.mapping m) ∧
        (∀ name ∈ nd.entries.map Prod.snd,
          aget m name = some
            (((matchingRows cdb (nd.entries.map Prod.fst) connection).filter
                (fun row => decide (agetD nd.entries row.id "" = name))).map
              ConnRow.data)) ∧
        (∀ p ∈ m, p.1 ∈ nd.entries.map Prod.snd)) := by
  refine ⟨mem_init_all_connections connection schemaConns, ?_, ?_⟩
  · intro h
    simp only [ConnectionHandler_get]
    rw [if_pos h]
  · intro hmem hnred
    have hred : (if connection = REDIRECT_CONNECTION then
        (matchingRows cdb (nd.entries.map Prod.fst) connection).head?
      else none) = none := by
      by_cases hc : connection = REDIRECT_CONNECTION
      · rw [if_pos hc]
        have hrows_nil :
            matchingRows cdb (nd.entries.map Prod.fst) connection = [] := by
          by_contra hne
          exact hnred ⟨hc, hne⟩
        rw [hrows_nil]
        rfl
      · rw [if_neg hc]
    refine ⟨(matchingRows cdb (nd.entries.map Prod.fst) connection).foldl
      (fun a r => aupd a (agetD nd.entries r.id "") r.data)
      ((nd.entries.map Prod.snd).foldl
        (fun a n => aset a n ([] : List JsonVal)) []), ?_, ?_, ?_⟩
    · simp only [ConnectionHandler_get]
      rw [if_neg (not_not_intro hmem), hred]
    · intro name hname
      rw [aget_foldl_aupd (fun row : ConnRow => agetD nd.entries row.id "")
        ConnRow.data]
      rw [aget_foldl_aset_const ([] : List JsonVal)
        (nd.entries.map Prod.snd) [] name]
      rw [if_pos hname]
      simp
    · intro p hp
      have h1 := List.mem_map_of_mem Prod.fst hp
      rw [keys_foldl_aupd] at h1
      have h2 := (mem_keys_iff_aget_isSome _ p.1).mp h1
      rw [aget_foldl_aset_const ([] : List JsonVal)
        (nd.entries.map Prod.snd) [] p.1] at h2
      by_cases hm : p.1 ∈ nd.entries.map Prod.snd
      · exact hm
      · rw [if_neg hm] at h2
        simp [aget] at h2

/-- Witness for C5 at GET /alice/foo of graph_test: the unrecognized
connection name foo raises UnknownPath carrying foo. -/
theorem connection_result_shape_witness :
    ConnectionHandler_get (init_all_connections exSchemaConns) exCdb
      ⟨[("1", "alice")], true⟩ "foo" = .error (.unknownPath "foo") :=
  (connection_result_shape exSchemaConns exCdb ⟨[("1", "alice")], true⟩
    "foo").2.1 (by decide)

/-- C6 (code evaluated at the failing input): with alice stored as id 1 and
alias alice and the me identity configured as 1, GET /1 and GET /alice
return the stored payload, but GET /me — which the repository's own test
test_me asserts returns the same payload — raises AliasNotFound, because
the stored me identity is never consulted by prepare_ids; the last
conjunct shows the configured identity has no influence at all. -/
theorem me_identity_never_consulted :
    ObjectHandler_handle exDb 1 ⟨"1", none⟩ =
      .response ⟨200, .jsonBody aliceObj⟩ ∧
    ObjectHandler_handle exDb 1 ⟨"alice", none⟩ =
      .response ⟨200, .jsonBody aliceObj⟩ ∧
    ObjectHandler_handle exDb 1 ⟨"me", none⟩ =
      .response ⟨200, .errorText (GraphError.aliasNotFound "me").render⟩ ∧
    (∀ me : Int, ObjectHandler_handle exDb me ⟨"me", none⟩ =
      ObjectHandler_handle exDb 1 ⟨"me", none⟩) :=
  ⟨rfl, rfl, rfl, fun _ => rfl⟩

/-- C7 counterexample: with both a path identifier and an ids parameter
the code raises IdSpecified, but the rendered message carries two spaces
after the first period, not the single space the claim states. -/
theorem id_specified_message_spacing_counterexample :
    prepare_ids exDb ⟨"foo", some "bar"⟩ =
      .error (.graph (.idSpecified "foo")) ∧
    (GraphError.idSpecified "foo").message ≠
      "Invalid token: \"foo\". An ID has already been specified." :=
  ⟨rfl, by decide⟩

/-- C7 amended: supplying both a path identifier and the multi-id ids
parameter raises IdSpecified carrying the path identifier, and the
rendered message is the code's template with two spaces after the first
period. -/
theorem id_specified_raised_with_template
    (db : List ObjRow) (req : Request) (s : String)
    (hp : req.path_id ≠ "") (hs : req.ids = some s) :
    prepare_ids db req = .error (.graph (.idSpecified req.path_id)) ∧
    (GraphError.idSpecified req.path_id).message =
      "Invalid token: \"" ++ req.path_id ++
        "\".  An ID has already been specified." := by
  constructor
  · have htruthy : (pySet (pySplit s ',')).isEmpty = false := by
      have hne := pySet_ne_nil (pySplit s ',') (pySplit_ne_nil s ',')
      cases hps : pySet (pySplit s ',') with
      | nil => exact absurd hps hne
      | cons a t => rfl
    have hrn : requestNames req =
        .error (.graph (.idSpecified req.path_id)) := by
      simp [requestNames, hs, hp, htruthy]
    simp [prepare_ids, hrn]
  · rfl

/-- Witness for C7 at GET /foo?ids=bar of graph_test. -/
theorem id_specified_raised_with_template_witness :
    prepare_ids exDb ⟨"foo", some "bar"⟩ =
      .error (.graph (.idSpecified "foo")) ∧
    (GraphError.idSpecified "foo").message =
      "Invalid token: \"" ++ "foo" ++
        "\".  An ID has already been specified." :=
  id_specified_raised_with_template exDb ⟨"foo", some "bar"⟩ "bar"
    (by decide) rfl

/-- C8: the test-users endpoint ignores the requested application id — any
two application ids receive identical responses over any database state —
and the body is the data list of id/access_token objects for every
distinct (user_id, token) pair of the token table, rendered as plain-text
UTF-8 JSON with two-space indentation. -/
theorem test_users_ignores_app_id (tokens : List (String × String))
    (a1 a2 : String) :
    TestUsersHandler_get tokens a1 = TestUsersHandler_get tokens a2 ∧
    (TestUsersHandler_get tokens a1).body =
      .obj [("data", .arr ((pySet tokens).map (fun p =>
        .obj [("id", .str p.1), ("access_token", .str p.2)])))] ∧
    (∀ p, p ∈ pySet tokens ↔ p ∈ tokens) ∧
    (pySet tokens).Nodup ∧
    (TestUsersHandler_get tokens a1).contentType =
      "text/plain; charset=utf-8" ∧
    (TestUsersHandler_get tokens a1).indent = 2 ∧
    (TestUsersHandler_get tokens a1).status = 200 :=
  ⟨rfl, rfl, fun p => mem_pySet p tokens, nodup_pySet tokens, rfl, rfl, rfl⟩

/-- Bool form: the payload of a dataset object carries an id field. -/
def hasId (d : GData) : Bool := (objGet d.data "id").isSome

/-- Bool form: a connection payload carries a data list. -/
def hasDataList (c : GConn) : Bool :=
  match objGet c.data "data" with
  | some (.arr _) => true
  | _ => false

/-- The data list of a connection payload (empty when malformed). -/
def connDataList (c : GConn) : List JsonVal :=
  match objGet c.data "data" with
  | some (.arr xs) => xs
  | _ => []

/-- Claim-side (amended) form of the object INSERT's value list: three
positional values — the id, the alias or NULL, and the json.dumps
re-encoding of the whole object. -/
def specObjValues (obj : JsonVal) : List PyVal :=
  [pyOfJson ((objGet obj "id").getD .null),
   (match objGet obj ALIAS_FIELD with
    | some a => pyOfJson a
    | none => .pynone),
   .pystr (dumpsVal obj)]

/-- Claim-side form of one connection's INSERT statements: one per
data-list element, carrying owning id, connection name and the re-encoded
element. -/
def specConnStmts (c : GConn) : List Stmt :=
  (connDataList c).map (fun o =>
    Stmt.insert "graph_connections"
      [.pystr c.id, .pystr c.name, .pystr (dumpsVal o)])

/-- Claim-side transaction layout of GraphDataset.to_sql. -/
def specGraphSql (ds : GraphDataset) : List Stmt :=
  Stmt.beginT ::
    ds.data.map (fun p => Stmt.insert "graph_objects" (specObjValues p.2.data))
    ++ (ds.connections.map specConnStmts).flatten ++ [Stmt.commit]

/-- Bool discriminators on statements. -/
def isBeginT : Stmt → Bool
  | .beginT => true
  | _ => false

/-- Bool discriminator for COMMIT. -/
def isCommit : Stmt → Bool
  | .commit => true
  | _ => false

theorem omap_eq_map {α β : Type} (f : α → Option β) (g : α → β) :
    ∀ l : List α, (∀ x ∈ l, f x = some (g x)) → omap f l = some (l.map g) := by
  intro l
  induction l with
  | nil => intro _; rfl
  | cons x t ih =>
    intro h
    have hx := h x (List.mem_cons_self _ _)
    have ht := ih (fun y hy => h y (List.mem_cons_of_mem _ hy))
    simp [omap, hx, ht]

/-- C9 amended: for a dataset whose objects carry an id field and whose
connections carry a data list, to_sql emits exactly one transaction whose
statements are, per object, one INSERT into graph_objects carrying three
positional values (id, alias or NULL when absent, json.dumps of the
object), then, per connection, one INSERT per data-list element into
graph_connections carrying the owning id, the connection name and
json.dumps of the element. -/
theorem graph_to_sql_layout (ds : GraphDataset)
    (hid : ∀ p ∈ ds.data, hasId p.2 = true)
    (hconn : ∀ c ∈ ds.connections, hasDataList c = true) :
    ds.to_sql_stmts = some (specGraphSql ds) ∧
    (∀ p ∈ ds.data, (specObjValues p.2.data).length = 3) ∧
    (specGraphSql ds).countP isBeginT = 1 ∧
    (specGraphSql ds).countP isCommit = 1 ∧
    (specGraphSql ds).head? = some .beginT ∧
    (specGraphSql ds).getLast? = some .commit := by
  have hobj : omap objInsert (ds.data.map Prod.snd) =
      some ((ds.data.map Prod.snd).map
        (fun d => Stmt.insert "graph_objects" (specObjValues d.data))) := by
    apply omap_eq_map
    intro d hd
    rcases List.mem_map.mp hd with ⟨p, hp, rfl⟩
    have := hid p hp
    rw [hasId] at this
    obtain ⟨idv, hidv⟩ := Option.isSome_iff_exists.mp this
    rw [objInsert, hidv, specObjValues, hidv]
    rfl
  have hcst : omap connInserts ds.connections =
      some (ds.connections.map specConnStmts) := by
    apply omap_eq_map
    intro c hc
    have := hconn c hc
    rw [hasDataList] at this
    rw [connInserts, specConnStmts, connDataList]
    cases hg : objGet c.data "data" with
    | none => rw [hg] at this; cases this
    | some v =>
      cases v with
      | arr xs => rfl
      | str s => rw [hg] at this; cases this
      | num n => rw [hg] at this; cases this
      | bool b => rw [hg] at this; cases this
      | null => rw [hg] at this; cases this
      | obj fs => rw [hg] at this; cases this
  have hmidA : ∀ s ∈ ds.data.map
      (fun p => Stmt.insert "graph_objects" (specObjValues p.2.data)),
      isBeginT s = false ∧ isCommit s = false := by
    intro s hs
    rcases List.mem_map.mp hs with ⟨p, _, rfl⟩
    exact ⟨rfl, rfl⟩
  have hmidB : ∀ s ∈ (ds.connections.map specConnStmts).flatten,
      isBeginT s = false ∧ isCommit s = false := by
    intro s hs
    rcases List.mem_flatten.mp hs with ⟨l, hl, hsl⟩
    rcases List.mem_map.mp hl with ⟨c, _, rfl⟩
    rcases List.mem_map.mp hsl with ⟨o, _, rfl⟩
    exact ⟨rfl, rfl⟩
  have hcountA1 : (ds.data.map (fun p =>
      Stmt.insert "graph_objects" (specObjValues p.2.data))).countP
        isBeginT = 0 :=
    List.countP_eq_zero.mpr (fun s hs => by simp [(hmidA s hs).1])
  have hcountA2 : (ds.data.map (fun p =>
      Stmt.insert "graph_objects" (specObjValues p.2.data))).countP
        isCommit = 0 :=
    List.countP_eq_zero.mpr (fun s hs => by simp [(hmidA s hs).2])
  have hcountB1 : ((ds.connections.map specConnStmts).flatten).countP
      isBeginT = 0 :=
    List.countP_eq_zero.mpr (fun s hs => by simp [(hmidB s hs).1])
  have hcountB2 : ((ds.connections.map specConnStmts).flatten).countP
      isCommit = 0 :=
    List.countP_eq_zero.mpr (fun s hs => by simp [(hmidB s hs).2])
  refine ⟨?_, fun p _ => rfl, ?_, ?_, rfl, ?_⟩
  · rw [GraphDataset.to_sql_stmts, hobj, hcst]
    simp [specGraphSql, List.map_map]
  · simp [specGraphSql, List.countP_cons, List.countP_append, hcountA1,
      hcountB1, isBeginT, isCommit]
  · simp [specGraphSql, List.countP_cons, List.countP_append, hcountA2,
      hcountB2, isBeginT, isCommit]
  · have hshape : specGraphSql ds =
        (Stmt.beginT ::
          (ds.data.map (fun p =>
            Stmt.insert "graph_objects" (specObjValues p.2.data))
          ++ (ds.connections.map specConnStmts).flatten)) ++ [Stmt.commit] := by
      simp [specGraphSql]
    rw [hshape, List.getLast?_concat]

/-- The one-object dataset of the C9 counterexample. -/
def exObj9 : JsonVal := .obj [("id", .str "1")]

/-- A graph dataset holding one object with no alias and no connections. -/
def exDs9 : GraphDataset := ⟨[("1", ⟨"1", "1", exObj9⟩)], []⟩

/-- C9 counterexample: the object INSERT emitted by to_sql carries three
positional values, not the four the claim states. -/
theorem graph_to_sql_four_values_counterexample :
    GraphDataset.to_sql_stmts exDs9 =
      some [Stmt.beginT,
        Stmt.insert "graph_objects"
          [.pystr "1", .pynone, .pystr (dumpsVal exObj9)],
        Stmt.commit] ∧
    [PyVal.pystr "1", PyVal.pynone,
      PyVal.pystr (dumpsVal exObj9)].length ≠ 4 :=
  ⟨rfl, by decide⟩

/-- Witness for C9 at the one-object dataset: the layout theorem applied
to the counterexample dataset. -/
theorem graph_to_sql_layout_witness :
    GraphDataset.to_sql_stmts exDs9 = some (specGraphSql exDs9) ∧
    (∀ p ∈ exDs9.data, (specObjValues p.2.data).length = 3) ∧
    (specGraphSql exDs9).countP isBeginT = 1 ∧
    (specGraphSql exDs9).countP isCommit = 1 ∧
    (specGraphSql exDs9).head? = some .beginT ∧
    (specGraphSql exDs9).getLast? = some .commit :=
  graph_to_sql_layout exDs9 (by decide) (by decide)

/-- C10: a request with neither a path identifier nor an ids parameter
leaves the requested-name set as None, so prepare_ids raises TypeError —
a kind outside the GraphError vocabulary — and the handler's error
boundary does not catch it: the request escapes as an unhandled exception
instead of rendering any fixed error body. -/
theorem bare_root_request_escapes (db : List ObjRow) (me : Int) :
    prepare_ids db ⟨"", none⟩ = .error .typeError ∧
    ObjectHandler_handle db me ⟨"", none⟩ = .uncaught ∧
    (∀ e : GraphError, PrepError.typeError ≠ PrepError.graph e) :=
  ⟨rfl, rfl, fun _ h => PrepError.noConfusion h⟩
